import Mathlib

/-
Verification of the Mana intelligence engine (src/intelligence.py and its
dashboard consumer src/dashboard.py) against its natural-language
specification.

The engine consumes a stream of classified comment records and produces one
intelligence report.  External collaborators (the YouTube fetch, the
transformer sentiment model and langdetect) are modelled as per-record input
fields: each raw record carries the classifier label, the confidence score and
the langdetect result (an Option, none modelling the exception langdetect
raises on featureless text).  The repository code itself — the keyword
classifiers, the per-record fold with its swallow-and-continue policy, the
flagged-video, repeat-user and takeaway derivations — is embedded faithfully
below.  Machine reals (Python floats) are modelled as rationals.
-/

/-! ## String helpers (model of Python str.lower and the in operator) -/

/-- Lower-case a string character by character (models str.lower for the
ASCII alphabet the rule keywords use). -/
def lowerStr (s : String) : String := String.mk (s.data.map Char.toLower)

/-- Does pat occur as a contiguous substring of hay (models the Python
expression pat in hay on character lists)? -/
def containsList (pat : List Char) : List Char → Bool
  | [] => pat.isEmpty
  | c :: rest => pat.isPrefixOf (c :: rest) || containsList pat rest

/-- Substring occurrence on strings: models Python pat in hay. -/
def strContains (hay pat : String) : Bool := containsList pat.data hay.data

/-! ## Configuration constants (src/intelligence.py lines 30-53) -/

def NEGATIVE_VIDEO_THRESHOLD : ℚ := 60

def REPEAT_USER_THRESHOLD : Nat := 3

/-- The ordered stage ruleset VIDEO_CLASSIFIERS.  Python dicts preserve
insertion order, so the dict literal is an ordered association list. -/
def VIDEO_CLASSIFIERS : List (String × List String) :=
  [(("Title Glimpse"), [("title"), ("glimpse"), ("announcement"), ("first look")]),
   (("Song"), [("song"), ("lyrical"), ("audio"), ("music")]),
   (("Teaser"), [("teaser")]),
   (("Trailer"), [("trailer")]),
   (("Interview"), [("interview"), ("press meet"), ("interaction")]),
   (("Review / Public Talk"), [("review"), ("public talk"), ("response")])]

/-- The ordered negativity-category ruleset NEGATIVE_CATEGORIES. -/
def NEGATIVE_CATEGORIES : List (String × List String) :=
  [(("Routine Content"), [("routine"), ("boring"), ("same")]),
   (("Age / Relevance"), [("old"), ("age"), ("outdated")]),
   (("Director Criticism"), [("ravipudi"), ("director")]),
   (("Story Doubt"), [("story"), ("script"), ("content")]),
   (("PR Attack"), [("pr"), ("paid"), ("fake hype")]),
   (("Personal Attack"), [("acting"), ("voice"), ("looks")])]

/-! ## Classifiers (src/intelligence.py lines 59-74) -/

/-- The for loop over an ordered ruleset with early return: the first rule
any of whose keywords occurs in the (already lower-cased) input wins. -/
def firstLabel (rules : List (String × List String)) (t : String) : Option String :=
  match rules with
  | [] => none
  | r :: rest => if r.2.any (fun k => strContains t k) then some r.1 else firstLabel rest t

/-- classify_video (lines 62-67): lower-case the title, scan
VIDEO_CLASSIFIERS in order, default to Other. -/
def classify_video (title : String) : String :=
  (firstLabel VIDEO_CLASSIFIERS (lowerStr title)).getD ("Other")

/-- categorize_negative (lines 69-74): lower-case the text, scan
NEGATIVE_CATEGORIES in order, default to General Negativity. -/
def categorize_negative (text : String) : String :=
  (firstLabel NEGATIVE_CATEGORIES (lowerStr text)).getD ("General Negativity")

/-- normalize_sentiment (lines 59-60): Positive exactly when the lower-cased
label contains the substring pos, otherwise Negative. -/
def normalize_sentiment (label : String) : String :=
  if strContains (lowerStr label) ("pos") then "Positive" else "Negative"

/-! ## Timestamp parsing and hour buckets (src/intelligence.py lines 175-176)

The source runs datetime.fromisoformat on published_at after replacing Z with
+00:00, then formats the result with strftime as YYYY-MM-DD HH:00.  A parse
failure raises ValueError, which the per-record bare except swallows.  The
model below accepts ISO strings of the form YYYY-MM-DD, optionally followed by
a T or space separator and HH:MM or HH:MM:SS, optionally followed by a +HH:MM
or -HH:MM offset, and returns none on anything else; exotic forms such as
fractional seconds are out of the modelled scope.  Day numbers are checked
against 1..31 regardless of month, a harmless widening for the inputs the
claims exercise. -/

/-- Numeric value of a two-digit character pair. -/
def val2 (a b : Char) : Nat := (a.toNat - 48) * 10 + (b.toNat - 48)

/-- Model of published_at.replace applied to Z, expanding it to +00:00. -/
def replaceZ : List Char → List Char
  | [] => []
  | c :: rest =>
    if c = 'Z' then '+' :: '0' :: '0' :: ':' :: '0' :: '0' :: replaceZ rest
    else c :: replaceZ rest

/-- Consume an optional valid trailing seconds field of the form colon and
two digits; leave anything else in place for the offset check. -/
def dropSeconds : List Char → List Char
  | a :: b :: c :: rest =>
    if (a == ':') && b.isDigit && c.isDigit && decide (val2 b c ≤ 59) then rest
    else a :: b :: c :: rest
  | other => other

/-- A valid trailing UTC offset: empty, or a sign followed by HH:MM. -/
def parseOffset : List Char → Bool
  | [] => true
  | sgn :: a :: b :: c :: d :: e :: [] =>
    ((sgn == '+') || (sgn == '-')) && a.isDigit && b.isDigit && (c == ':') &&
      d.isDigit && e.isDigit && decide (val2 a b ≤ 23) && decide (val2 d e ≤ 59)
  | _ => false

/-- Parse HH:MM with optional seconds; return the hour digits and the rest. -/
def parseTimeTail : List Char → Option (Char × Char × List Char)
  | a :: b :: c :: d :: e :: rest =>
    if a.isDigit && b.isDigit && (c == ':') && d.isDigit && e.isDigit &&
        decide (val2 a b ≤ 23) && decide (val2 d e ≤ 59) then
      some (a, b, dropSeconds rest)
    else none
  | _ => none

/-- Model of the composition of fromisoformat after the Z replacement with
strftime formatting as YYYY-MM-DD HH:00; none models the ValueError the
source swallows per record. -/
def parse_hour_bucket (s : String) : Option String :=
  match replaceZ s.data with
  | y1 :: y2 :: y3 :: y4 :: s1 :: mo1 :: mo2 :: s2 :: d1 :: d2 :: rest =>
    if y1.isDigit && y2.isDigit && y3.isDigit && y4.isDigit &&
        (s1 == '-') && (s2 == '-') && mo1.isDigit && mo2.isDigit &&
        d1.isDigit && d2.isDigit &&
        decide (1 ≤ val2 mo1 mo2) && decide (val2 mo1 mo2 ≤ 12) &&
        decide (1 ≤ val2 d1 d2) && decide (val2 d1 d2 ≤ 31) then
      match rest with
      | [] => some (String.mk [y1, y2, y3, y4, s1, mo1, mo2, s2, d1, d2] ++ " 00:00")
      | sep :: t2 =>
        if (sep == 'T') || (sep == Char.ofNat 32) then
          match parseTimeTail t2 with
          | some (h1, h2, r) =>
            if parseOffset r then
              some (String.mk [y1, y2, y3, y4, s1, mo1, mo2, s2, d1, d2] ++ " " ++
                String.mk [h1, h2] ++ ":00")
            else none
          | none => none
        else none
    else none
  | _ => none

/-! ## Data model

RawComment is the per-comment input of the engine loop (lines 120-144 build
it from the comment fetch; the sentiment label, confidence score and the
langdetect outcome are outputs of the external collaborators, carried as
input fields; detected_language is none when langdetect raises). -/

structure RawComment where
  author : String
  comment : String
  published_at : String
  video_title : String
  video_type : String
  video_url : String
  label : String
  score : ℚ
  detected_language : Option String
deriving DecidableEq

/-- Row is the enriched record the loop appends to results (lines 180-187). -/
structure Row where
  author : String
  comment : String
  published_at : String
  video_title : String
  video_type : String
  video_url : String
  sentiment : String
  language : String
  negative_category : Option String
  confidence : ℚ
  hour_bucket : String
deriving DecidableEq

/-- The body of the per-record try block (lines 170-187): sentiment
normalization, language detection, timestamp parsing and negative
categorization; none models any exception, which the bare except swallows. -/
def processComment (c : RawComment) : Option Row :=
  match c.detected_language, parse_hour_bucket c.published_at with
  | some lang, some hb =>
    some
      { author := c.author
        comment := c.comment
        published_at := c.published_at
        video_title := c.video_title
        video_type := c.video_type
        video_url := c.video_url
        sentiment := normalize_sentiment c.label
        language := lang
        negative_category :=
          if normalize_sentiment c.label = "Negative" then some (categorize_negative c.comment)
          else none
        confidence := c.score
        hour_bucket := hb }
  | _, _ => none

/-! ## Insertion-ordered association lists (model of Python dict, defaultdict
and Counter: updating an existing key keeps its position, a new key is
appended at the end). -/

/-- Dict lookup. -/
def look {V : Type} : List (String × V) → String → Option V
  | [], _ => none
  | p :: rest, k => if p.1 = k then some p.2 else look rest k

/-- defaultdict update: apply f to the current value (or to the default when
the key is absent), preserving insertion order. -/
def upd {V : Type} (m : List (String × V)) (k : String) (init : V) (f : V → V) :
    List (String × V) :=
  match m with
  | [] => [(k, f init)]
  | p :: rest => if p.1 = k then (k, f p.2) :: rest else p :: upd rest k init f

/-- Count stored for a key of a Counter, zero when absent. -/
def cnt (m : List (String × Nat)) (k : String) : Nat := (look m k).getD 0

/-- Pair stored for a key of a two-counter dict, (0, 0) when absent. -/
def cntPair (m : List (String × (Nat × Nat))) (k : String) : Nat × Nat :=
  (look m k).getD (0, 0)

/-! ## The aggregation fold (src/intelligence.py lines 160-202) -/

/-- The mutable accumulators of the loop: results, video_map, user_map,
language_map (Positive and Negative counts), stage_map (total and negative
counts), category_map, spikes and engagement. -/
structure EngineState where
  results : List Row
  video_map : List (String × List Row)
  user_map : List (String × List Row)
  language_map : List (String × (Nat × Nat))
  stage_map : List (String × (Nat × Nat))
  category_map : List (String × Nat)
  spikes : List (String × Nat)
  engagement : List (String × Nat)
deriving DecidableEq

def emptyState : EngineState := ⟨[], [], [], [], [], [], [], []⟩

/-- One successfully processed record folded into every accumulator
(lines 189-199).  language_map stores (Positive, Negative) counts; stage_map
stores (total, negative) counts. -/
def ingestRow (st : EngineState) (row : Row) : EngineState :=
  { results := st.results ++ [row]
    video_map := upd st.video_map row.video_title [] (fun v => v ++ [row])
    user_map := upd st.user_map row.author [] (fun v => v ++ [row])
    language_map :=
      upd st.language_map row.language (0, 0)
        (fun p => if row.sentiment = "Negative" then (p.1, p.2 + 1) else (p.1 + 1, p.2))
    stage_map :=
      (fun m =>
        if row.sentiment = "Negative" then
          upd m row.video_type (0, 0) (fun p => (p.1, p.2 + 1))
        else m)
        (upd st.stage_map row.video_type (0, 0) (fun p => (p.1 + 1, p.2)))
    category_map :=
      if row.sentiment = "Negative" then
        upd st.category_map (row.negative_category.getD ("")) 0 (fun n => n + 1)
      else st.category_map
    spikes :=
      if row.sentiment = "Negative" then upd st.spikes row.hour_bucket 0 (fun n => n + 1)
      else st.spikes
    engagement := upd st.engagement row.video_title 0 (fun n => n + 1) }

/-- One loop iteration: a record that raises anywhere inside the try block is
skipped by the bare except and leaves every accumulator unchanged. -/
def foldStep (st : EngineState) (c : RawComment) : EngineState :=
  match processComment c with
  | some row => ingestRow st row
  | none => st

/-- The loop starting from an arbitrary accumulator state. -/
def foldFrom (st : EngineState) (s : List RawComment) : EngineState := s.foldl foldStep st

/-- The full analysis loop over the comment stream. -/
def foldStream (s : List RawComment) : EngineState := foldFrom emptyState s

/-- The successfully processed records of a stream, in arrival order. -/
def processed (s : List RawComment) : List Row := s.filterMap processComment

/-! ## Report derivations (src/intelligence.py lines 204-272) -/

/-- Python round at two decimal places on exact rationals: round half to
even, as the float round builtin does. -/
def pyRound2 (q : ℚ) : ℚ :=
  let num : ℤ := q.num * 100
  let den : ℤ := (q.den : ℤ)
  let f : ℤ := Int.fdiv num den
  let r : ℤ := num - f * den
  let n : ℤ := if 2 * r < den then f else if den < 2 * r then f + 1
    else if f % 2 = 0 then f else f + 1
  Rat.divInt n 100

/-- Python max over key-ratio pairs: scan left to right, replace the current
best only on a strictly larger key value, so the first maximum wins; none
models the ValueError that max raises on an empty sequence. -/
def pickMax : List (String × ℚ) → Option String
  | [] => none
  | x :: xs => some (xs.foldl (fun b y => if b.2 < y.2 then y else b) x).1

/-- Stable insertion by descending count: an element is placed before every
strictly smaller count and before equal counts coming later, matching the
stable sort Counter.most_common performs. -/
def insertByCount (x : String × Nat) : List (String × Nat) → List (String × Nat)
  | [] => [x]
  | y :: ys => if y.2 ≤ x.2 then x :: y :: ys else y :: insertByCount x ys

/-- Counter.most_common: stable sort by descending count. -/
def sortByCount (l : List (String × Nat)) : List (String × Nat) := l.foldr insertByCount []

/-- The instances block of the report (lines 249-252). -/
structure Instances where
  total_mentions : Nat
  negative_mentions : Nat
deriving DecidableEq

/-- One entry of flagged_negative_videos (lines 211-216). -/
structure FlaggedVideo where
  video_title : String
  video_type : String
  negative_percentage : ℚ
  video_url : String
deriving DecidableEq

/-- One entry of repeat_users (lines 225-232). -/
structure Offender where
  author : String
  negative_comments : Nat
  videos_targeted : Nat
deriving DecidableEq

/-- The values interpolated into the four key_takeaways template strings
(lines 236-241); the source renders them into fixed f-string templates,
which adds no information. -/
structure Takeaways where
  negative_pct : ℚ
  flagged_count : Nat
  repeat_count : Nat
  highest_stage : String
deriving DecidableEq

/-- negative count of a list of rows. -/
def negCountRows (rows : List Row) : Nat :=
  rows.countP (fun r => decide (r.sentiment = "Negative"))

/-- The exact rational value of neg over max(1, total), times 100, written
as one integer fraction so that it evaluates inside the kernel (the rational
operations of the library are irreducible); floats are modelled exactly. -/
def pctValue (neg total : Nat) : ℚ :=
  Rat.divInt ((neg : ℤ) * 100) (((max 1 total : Nat) : ℤ))

/-- The flagged-video percentage (line 209): negatives over max 1 total,
times 100, rounded to two decimals. -/
def pctRows (rows : List Row) : ℚ :=
  pyRound2 (pctValue (negCountRows rows) rows.length)

/-- One loop body of the flagged-video derivation (lines 207-216): a
video_map group is emitted when its negative percentage meets
NEGATIVE_VIDEO_THRESHOLD, carrying the type and url of its first row. -/
def flagEntry (p : String × List Row) : Option FlaggedVideo :=
  if NEGATIVE_VIDEO_THRESHOLD ≤ pctRows p.2 then
    some
      { video_title := p.1
        video_type := ((p.2.head?).map (fun r => r.video_type)).getD ("")
        negative_percentage := pctRows p.2
        video_url := ((p.2.head?).map (fun r => r.video_url)).getD ("") }
  else none

/-- flagged_negative_videos (lines 206-216). -/
def flaggedOf (st : EngineState) : List FlaggedVideo :=
  st.video_map.filterMap flagEntry

/-- repeat_users (lines 220-223): user_map entries with at least
REPEAT_USER_THRESHOLD negative comments. -/
def repeatUsersOf (st : EngineState) : List (String × List Row) :=
  st.user_map.filter (fun p => decide (REPEAT_USER_THRESHOLD ≤ negCountRows p.2))

/-- top_offenders (lines 225-232): author, negative count and distinct
videos targeted, for each repeat user. -/
def topOffendersOf (st : EngineState) : List Offender :=
  (repeatUsersOf st).map (fun p =>
    { author := p.1
      negative_comments := negCountRows p.2
      videos_targeted := ((p.2.map (fun r => r.video_title)).dedup).length })

/-- key_takeaways (lines 236-241).  The last takeaway applies Python max to
stage_map keyed by the negative ratio; on an empty stage_map that call
raises ValueError, modelled by none. -/
def takeawaysOf (st : EngineState) : Option Takeaways :=
  match pickMax (st.stage_map.map (fun p => (p.1, Rat.divInt (p.2.2 : ℤ) (((max 1 p.2.1 : Nat) : ℤ))))) with
  | none => none
  | some stage =>
    some
      { negative_pct := pyRound2 (pctValue (negCountRows st.results) st.results.length)
        flagged_count := (flaggedOf st).length
        repeat_count := (repeatUsersOf st).length
        highest_stage := stage }

/-- The report value (lines 243-267), excluding the constant movie, hero and
director strings, the wall-clock generated_at field and the raw video list
passed through from the fetch. -/
structure Report where
  instances : Instances
  negative_spikes : List (String × Nat)
  language_distribution : List (String × (Nat × Nat))
  sentiment_by_stage : List (String × (Nat × Nat))
  negative_categories : List (String × Nat)
  top_engaged_videos : List (String × Nat)
  flagged_negative_videos : List FlaggedVideo
  repeat_users : List Offender
  repeat_user_details : List (String × List Row)
  key_takeaways : Takeaways
  comments : List Row
deriving DecidableEq

/-- run_intelligence (lines 150-272) restricted to the analysis of a given
comment stream: fold every record through the accumulators, then build the
report; none models the uncaught ValueError raised while building
key_takeaways when no record was processed. -/
def run_intelligence (s : List RawComment) : Option Report :=
  match takeawaysOf (foldStream s) with
  | none => none
  | some kt =>
    some
      { instances :=
          { total_mentions := (foldStream s).results.length
            negative_mentions := negCountRows (foldStream s).results }
        negative_spikes := (foldStream s).spikes
        language_distribution := (foldStream s).language_map
        sentiment_by_stage := (foldStream s).stage_map
        negative_categories := (foldStream s).category_map
        top_engaged_videos := (sortByCount (foldStream s).engagement).take 10
        flagged_negative_videos := flaggedOf (foldStream s)
        repeat_users := topOffendersOf (foldStream s)
        repeat_user_details := repeatUsersOf (foldStream s)
        key_takeaways := kt
        comments := (foldStream s).results }

/-! ## The coordination detector (spec section 4.4) -/

/-- One attacker record of the attack_coordination output. -/
structure Attacker where
  author : String
  negative_comments : Nat
  stages : List String
  videos_targeted : Nat
deriving DecidableEq

/-- Modelled from the spec: the Coordination Detector of spec section 4.4 is
code of this repository that is missing from src/ — only its consumer is
present (src/dashboard.py reads the attack_coordination report key at lines
30 and 100).  Per the spec: for each user let neg be the subsequence of the
user history with sentiment Negative; the user is flagged exactly when the
count of neg reaches REPEAT_USER_THRESHOLD and the set of distinct videoType
values among neg has cardinality at least 2; each attacker record carries
the author, the negative count, the distinct stages targeted and the count
of distinct videos targeted.  The spec leaves the output order unspecified
but deterministic; the deterministic user_map insertion order is used. -/
def attackEntry (p : String × List Row) : Option Attacker :=
  (fun neg =>
    if REPEAT_USER_THRESHOLD ≤ neg.length ∧
        2 ≤ ((neg.map (fun r => r.video_type)).dedup).length then
      some
        { author := p.1
          negative_comments := neg.length
          stages := (neg.map (fun r => r.video_type)).dedup
          videos_targeted := ((neg.map (fun r => r.video_title)).dedup).length }
    else none)
    (p.2.filter (fun r => decide (r.sentiment = "Negative")))

/-- Modelled from the spec: the detector maps the per-user qualification
attackEntry over the user histories. -/
def attack_coordination (st : EngineState) : List Attacker :=
  st.user_map.filterMap attackEntry

/-! ## The spike alert of claim C3, stated from the claim wording -/

/-- A spike alert as the claim describes it. -/
structure SpikeAlert where
  bucket : String
  count : Nat
  average : ℚ
  severity : String
deriving DecidableEq

/-- Follows the claim wording (spec section 4.3), not the source: with at
least 3 buckets, when the most recent count exceeds twice the mean of all
earlier counts, an alert carries the triggering bucket, its count, the
baseline rounded to two decimals and severity HIGH.  Twice the mean of the
earlier counts is written as the single fraction twice-sum over length,
exactly equal to it, so that the definition evaluates in the kernel. -/
def detectSpike_claim (series : List (String × Nat)) : Option SpikeAlert :=
  if 3 ≤ series.length then
    match series.getLast? with
    | some last =>
      (fun base =>
        if Rat.divInt (2 * ((base.map (fun p => p.2)).sum : ℤ)) ((base.length : ℤ)) <
            ((last.2 : ℤ) : ℚ) then
          some { bucket := last.1, count := last.2,
                 average := pyRound2 (Rat.divInt (((base.map (fun p => p.2)).sum : ℤ))
                   ((base.length : ℤ)))
                 severity := "HIGH" }
        else none)
        series.dropLast
    | none => none
  else none

/-- Every string the report carries, collected so that the absence of any
alert payload in the report is a checkable fact. -/
def reportStrings (r : Report) : List String :=
  (r.comments.map (fun c => [c.author, c.comment, c.published_at, c.video_title,
      c.video_type, c.video_url, c.sentiment, c.language,
      c.negative_category.getD (""), c.hour_bucket])).flatten ++
  r.negative_spikes.map (fun p => p.1) ++
  r.language_distribution.map (fun p => p.1) ++
  r.sentiment_by_stage.map (fun p => p.1) ++
  r.negative_categories.map (fun p => p.1) ++
  r.top_engaged_videos.map (fun p => p.1) ++
  (r.flagged_negative_videos.map (fun v => [v.video_title, v.video_type, v.video_url])).flatten ++
  r.repeat_users.map (fun o => o.author) ++
  r.repeat_user_details.map (fun p => p.1) ++
  [r.key_takeaways.highest_stage]

/-! ## Concrete streams used by witnesses and counterexamples -/

/-- Build a raw comment with the fields the scenarios vary. -/
def mkC (author comment ts title vtype label : String) : RawComment :=
  { author := author
    comment := comment
    published_at := ts
    video_title := title
    video_type := vtype
    video_url := "https://youtu.be/x"
    label := label
    score := Rat.divInt 9 10
    detected_language := some ("en") }

/-- A record whose published_at cannot be parsed: the try block raises and
the bare except skips it. -/
def badRecord : RawComment :=
  mkC ("bob") ("nice one") ("not-a-timestamp") ("SSVP Trailer") ("Trailer") ("Positive")

/-- A well-formed record. -/
def goodRecord : RawComment :=
  mkC ("alice") ("great trailer") ("2026-01-01T01:10:00Z") ("SSVP Trailer") ("Trailer") ("Positive")

/-- Stream with three hour buckets of negative counts 1, 1, 4: the bucket
series the claim C3 scenario asks about (last count 4 exceeds twice the
baseline mean 1). -/
def demoSpike : List RawComment :=
  [mkC ("u1") ("bad story") ("2026-01-01T01:00:00Z") ("SSVP Trailer") ("Trailer") ("Negative"),
   mkC ("u2") ("bad story") ("2026-01-01T02:00:00Z") ("SSVP Trailer") ("Trailer") ("Negative"),
   mkC ("u3") ("bad story") ("2026-01-01T03:00:00Z") ("SSVP Trailer") ("Trailer") ("Negative"),
   mkC ("u4") ("bad story") ("2026-01-01T03:10:00Z") ("SSVP Trailer") ("Trailer") ("Negative"),
   mkC ("u5") ("bad story") ("2026-01-01T03:20:00Z") ("SSVP Trailer") ("Trailer") ("Negative"),
   mkC ("u6") ("bad story") ("2026-01-01T03:30:00Z") ("SSVP Trailer") ("Trailer") ("Negative")]

/-- Stream in which video AAA has 7 comments, 5 negative, and video BBB has
3 comments, 1 negative: the flagged-video scenario of claim C5. -/
def demoFlag : List RawComment :=
  [mkC ("a1") ("boring") ("2026-01-01T01:00:00Z") ("AAA") ("Song") ("Negative"),
   mkC ("a2") ("boring") ("2026-01-01T01:05:00Z") ("AAA") ("Song") ("Negative"),
   mkC ("a3") ("boring") ("2026-01-01T01:10:00Z") ("AAA") ("Song") ("Negative"),
   mkC ("a4") ("boring") ("2026-01-01T01:15:00Z") ("AAA") ("Song") ("Negative"),
   mkC ("a5") ("boring") ("2026-01-01T01:20:00Z") ("AAA") ("Song") ("Negative"),
   mkC ("a6") ("super") ("2026-01-01T01:25:00Z") ("AAA") ("Song") ("Positive"),
   mkC ("a7") ("super") ("2026-01-01T01:30:00Z") ("AAA") ("Song") ("Positive"),
   mkC ("b1") ("boring") ("2026-01-01T02:00:00Z") ("BBB") ("Teaser") ("Negative"),
   mkC ("b2") ("super") ("2026-01-01T02:05:00Z") ("BBB") ("Teaser") ("Positive"),
   mkC ("b3") ("super") ("2026-01-01T02:10:00Z") ("BBB") ("Teaser") ("Positive")]

/-- Stream in which user troll posts 5 negative comments all under the Song
stage and user fan posts 4 negative comments across Song and Trailer: the
coordination scenarios of claim C2. -/
def demoUsers : List RawComment :=
  [mkC ("troll") ("boring") ("2026-01-01T01:00:00Z") ("S1") ("Song") ("Negative"),
   mkC ("troll") ("boring") ("2026-01-01T01:05:00Z") ("S2") ("Song") ("Negative"),
   mkC ("troll") ("boring") ("2026-01-01T01:10:00Z") ("S3") ("Song") ("Negative"),
   mkC ("troll") ("boring") ("2026-01-01T01:15:00Z") ("S1") ("Song") ("Negative"),
   mkC ("troll") ("boring") ("2026-01-01T01:20:00Z") ("S2") ("Song") ("Negative"),
   mkC ("fan") ("boring") ("2026-01-01T02:00:00Z") ("S1") ("Song") ("Negative"),
   mkC ("fan") ("boring") ("2026-01-01T02:05:00Z") ("T1") ("Trailer") ("Negative"),
   mkC ("fan") ("boring") ("2026-01-01T02:10:00Z") ("S1") ("Song") ("Negative"),
   mkC ("fan") ("boring") ("2026-01-01T02:15:00Z") ("T1") ("Trailer") ("Negative")]

/-- Two-record stream and its swap, for the order-independence witness. -/
def demoPermA : List RawComment :=
  [mkC ("alice") ("boring") ("2026-01-01T01:00:00Z") ("AAA") ("Song") ("Negative"),
   mkC ("bob") ("super") ("2026-01-01T02:00:00Z") ("BBB") ("Teaser") ("Positive")]

/-- The same two records in the other order. -/
def demoPermB : List RawComment :=
  [mkC ("bob") ("super") ("2026-01-01T02:00:00Z") ("BBB") ("Teaser") ("Positive"),
   mkC ("alice") ("boring") ("2026-01-01T01:00:00Z") ("AAA") ("Song") ("Negative")]

/-! ## Association-list lemmas -/

/-- Keys of an association list. -/
def keys {V : Type} (m : List (String × V)) : List String := m.map Prod.fst

/-- Append rows to an optional group, creating the group when absent and
rows arrive. -/
def appendRows : Option (List Row) → List Row → Option (List Row)
  | none, [] => none
  | none, l => some l
  | some v, l => some (v ++ l)

/-- Rows of a stream that belong to a given video title. -/
def videoRows (s : List RawComment) (t : String) : List Row :=
  (processed s).filter (fun r => decide (r.video_title = t))

/-- Negative rows of a stream that belong to a given author. -/
def userNegRows (s : List RawComment) (a : String) : List Row :=
  (processed s).filter (fun r => decide (r.author = a ∧ r.sentiment = "Negative"))

/-- Number of distinct video types among the negative rows of an author. -/
def userNegStageCount (s : List RawComment) (a : String) : Nat :=
  (((userNegRows s a).map (fun r => r.video_type)).dedup).length

/-- Titles of the flagged videos of a report state. -/
def flaggedTitles (st : EngineState) : List String :=
  (flaggedOf st).map (fun v => v.video_title)

/-- Authors of the repeat users of a report state. -/
def repeatAuthors (st : EngineState) : List String :=
  (repeatUsersOf st).map (fun p => p.1)

/-- Authors of the coordinated attackers of a report state. -/
def attackerAuthors (st : EngineState) : List String :=
  (attack_coordination st).map (fun x => x.author)

/-- A report with all-zero counts, used only as the getD fallback below. -/
def emptyReport : Report :=
  ⟨⟨0, 0⟩, [], [], [], [], [], [], [], [], ⟨0, 0, 0, ("")⟩, []⟩

/-- The report the engine produces for a stream, when it produces one. -/
def reportOf (s : List RawComment) : Report := (run_intelligence s).getD emptyReport

theorem look_upd_self {V : Type} (m : List (String × V)) (k : String) (init : V) (f : V → V) :
    look (upd m k init f) k = some (f ((look m k).getD init)) := by
  induction m with
  | nil => simp [look, upd]
  | cons p rest ih =>
    by_cases h : p.1 = k
    · simp [look, upd, h]
    · simp [look, upd, h, ih]

theorem look_upd_ne {V : Type} (m : List (String × V)) (k k2 : String) (init : V) (f : V → V)
    (h : k2 ≠ k) : look (upd m k init f) k2 = look m k2 := by
  induction m with
  | nil =>
    simp only [upd, look]
    rw [if_neg (fun hh => h hh.symm)]
  | cons p rest ih =>
    simp only [upd]
    by_cases hp : p.1 = k
    · rw [if_pos hp]
      simp only [look]
      rw [if_neg (fun hh => h hh.symm), if_neg (fun hh => h (hp.symm.trans hh).symm)]
    · rw [if_neg hp]
      simp only [look]
      by_cases hp2 : p.1 = k2
      · rw [if_pos hp2, if_pos hp2]
      · rw [if_neg hp2, if_neg hp2]
        exact ih

theorem cnt_upd_self (m : List (String × Nat)) (k : String) :
    cnt (upd m k 0 (fun n => n + 1)) k = cnt m k + 1 := by
  simp [cnt, look_upd_self]

theorem cnt_upd_ne (m : List (String × Nat)) (k k2 : String) (h : k2 ≠ k) :
    cnt (upd m k 0 (fun n => n + 1)) k2 = cnt m k2 := by
  simp [cnt, look_upd_ne m k k2 _ _ h]

theorem mem_keys_upd {V : Type} (m : List (String × V)) (k a : String) (init : V) (f : V → V) :
    a ∈ keys (upd m k init f) ↔ a ∈ keys m ∨ a = k := by
  induction m with
  | nil => simp [keys, upd]
  | cons p rest ih =>
    by_cases hp : p.1 = k
    · subst hp
      simp [keys, upd]
      tauto
    · simp only [upd, hp, if_false, keys, List.map_cons, List.mem_cons]
      rw [show (List.map Prod.fst (upd rest k init f)) = keys (upd rest k init f) from rfl]
      rw [show (List.map Prod.fst rest) = keys rest from rfl]
      rw [ih]
      tauto

theorem keysNodup_upd {V : Type} (m : List (String × V)) (k : String) (init : V) (f : V → V)
    (h : (keys m).Nodup) : (keys (upd m k init f)).Nodup := by
  induction m with
  | nil => simp [keys, upd]
  | cons p rest ih =>
    simp only [keys, List.map_cons, List.nodup_cons] at h
    by_cases hp : p.1 = k
    · subst hp
      simpa [keys, upd, List.nodup_cons] using h
    · simp only [upd, hp, if_false, keys, List.map_cons, List.nodup_cons]
      constructor
      · intro hmem
        rcases (mem_keys_upd rest k p.1 init f).mp hmem with hin | heq
        · exact h.1 hin
        · exact hp heq
      · exact ih h.2

theorem look_eq_of_mem {V : Type} (m : List (String × V)) (k : String) (v : V)
    (hnd : (keys m).Nodup) (h : (k, v) ∈ m) : look m k = some v := by
  induction m with
  | nil => simp at h
  | cons p rest ih =>
    simp only [keys, List.map_cons, List.nodup_cons] at hnd
    rcases List.mem_cons.mp h with heq | hin
    · subst heq
      simp [look]
    · by_cases hp : p.1 = k
      · exfalso
        apply hnd.1
        rw [hp]
        exact List.mem_map.mpr ⟨(k, v), hin, rfl⟩
      · simp only [look, hp, if_false]
        exact ih hnd.2 hin

theorem mem_of_look_eq {V : Type} (m : List (String × V)) (k : String) (v : V)
    (h : look m k = some v) : (k, v) ∈ m := by
  induction m with
  | nil => simp [look] at h
  | cons p rest ih =>
    by_cases hp : p.1 = k
    · simp only [look, hp, if_true, Option.some.injEq] at h
      subst h
      have hpe : (k, p.2) = p := by rw [← hp]
      rw [hpe]
      exact List.mem_cons_self p rest
    · simp only [look, hp, if_false] at h
      exact List.mem_cons_of_mem _ (ih h)

theorem cntPair_upd_self (m : List (String × (Nat × Nat))) (k : String)
    (f : Nat × Nat → Nat × Nat) : cntPair (upd m k (0, 0) f) k = f (cntPair m k) := by
  simp [cntPair, look_upd_self]

theorem cntPair_upd_ne (m : List (String × (Nat × Nat))) (k k2 : String)
    (f : Nat × Nat → Nat × Nat) (h : k2 ≠ k) : cntPair (upd m k (0, 0) f) k2 = cntPair m k2 := by
  simp [cntPair, look_upd_ne m k k2 _ _ h]

/-! ## Characterizations of the fold -/

theorem foldFrom_cons (st : EngineState) (c : RawComment) (s : List RawComment) :
    foldFrom st (c :: s) = foldFrom (foldStep st c) s := rfl

theorem processed_cons_none (c : RawComment) (s : List RawComment)
    (hc : processComment c = none) : processed (c :: s) = processed s := by
  simp [processed, List.filterMap_cons, hc]

theorem processed_cons_some (c : RawComment) (s : List RawComment) (row : Row)
    (hc : processComment c = some row) : processed (c :: s) = row :: processed s := by
  simp [processed, List.filterMap_cons, hc]

theorem foldStep_none (st : EngineState) (c : RawComment) (hc : processComment c = none) :
    foldStep st c = st := by
  simp [foldStep, hc]

theorem foldStep_some (st : EngineState) (c : RawComment) (row : Row)
    (hc : processComment c = some row) : foldStep st c = ingestRow st row := by
  simp [foldStep, hc]

theorem results_foldFrom (s : List RawComment) : ∀ st : EngineState,
    (foldFrom st s).results = st.results ++ processed s := by
  induction s with
  | nil => intro st; simp [foldFrom, processed]
  | cons c s ih =>
    intro st
    rw [foldFrom_cons]
    cases hc : processComment c with
    | none => rw [foldStep_none st c hc, ih, processed_cons_none c s hc]
    | some row =>
      rw [foldStep_some st c row hc, ih, processed_cons_some c s row hc]
      simp [ingestRow]

theorem spikes_cnt (s : List RawComment) : ∀ (st : EngineState) (k : String),
    cnt (foldFrom st s).spikes k = cnt st.spikes k +
      (processed s).countP (fun r => decide (r.sentiment = "Negative" ∧ r.hour_bucket = k)) := by
  induction s with
  | nil => intro st k; simp [foldFrom, processed]
  | cons c s ih =>
    intro st k
    rw [foldFrom_cons]
    cases hc : processComment c with
    | none => rw [foldStep_none st c hc, ih, processed_cons_none c s hc]
    | some row =>
      rw [foldStep_some st c row hc, ih, processed_cons_some c s row hc, List.countP_cons]
      have hstep : cnt (ingestRow st row).spikes k = cnt st.spikes k +
          (if row.sentiment = "Negative" ∧ row.hour_bucket = k then 1 else 0) := by
        by_cases hneg : row.sentiment = "Negative"
        · by_cases hb : row.hour_bucket = k
          · simp only [ingestRow, hneg, if_true]
            rw [show row.hour_bucket = k from hb] at *
            simp [cnt_upd_self, hneg, hb]
          · simp only [ingestRow, hneg, if_true]
            rw [cnt_upd_ne st.spikes row.hour_bucket k (fun hh => hb hh.symm)]
            simp [hneg, hb]
        · simp [ingestRow, hneg]
      rw [hstep]
      simp only [decide_eq_true_eq]
      omega

theorem engagement_cnt (s : List RawComment) : ∀ (st : EngineState) (k : String),
    cnt (foldFrom st s).engagement k = cnt st.engagement k +
      (processed s).countP (fun r => decide (r.video_title = k)) := by
  induction s with
  | nil => intro st k; simp [foldFrom, processed]
  | cons c s ih =>
    intro st k
    rw [foldFrom_cons]
    cases hc : processComment c with
    | none => rw [foldStep_none st c hc, ih, processed_cons_none c s hc]
    | some row =>
      rw [foldStep_some st c row hc, ih, processed_cons_some c s row hc, List.countP_cons]
      have hstep : cnt (ingestRow st row).engagement k = cnt st.engagement k +
          (if row.video_title = k then 1 else 0) := by
        by_cases ht : row.video_title = k
        · simp only [ingestRow]
          rw [show row.video_title = k from ht] at *
          simp [cnt_upd_self, ht]
        · simp only [ingestRow]
          rw [cnt_upd_ne st.engagement row.video_title k (fun hh => ht hh.symm)]
          simp [ht]
      rw [hstep]
      simp only [decide_eq_true_eq]
      omega

theorem category_cnt (s : List RawComment) : ∀ (st : EngineState) (k : String),
    cnt (foldFrom st s).category_map k = cnt st.category_map k +
      (processed s).countP
        (fun r => decide (r.sentiment = "Negative" ∧ r.negative_category.getD ("") = k)) := by
  induction s with
  | nil => intro st k; simp [foldFrom, processed]
  | cons c s ih =>
    intro st k
    rw [foldFrom_cons]
    cases hc : processComment c with
    | none => rw [foldStep_none st c hc, ih, processed_cons_none c s hc]
    | some row =>
      rw [foldStep_some st c row hc, ih, processed_cons_some c s row hc, List.countP_cons]
      have hstep : cnt (ingestRow st row).category_map k = cnt st.category_map k +
          (if row.sentiment = "Negative" ∧ row.negative_category.getD ("") = k then 1 else 0) := by
        by_cases hneg : row.sentiment = "Negative"
        · by_cases hcat : row.negative_category.getD ("") = k
          · simp only [ingestRow, hneg, if_true]
            rw [show row.negative_category.getD ("") = k from hcat] at *
            simp [cnt_upd_self, hneg, hcat]
          · simp only [ingestRow, hneg, if_true]
            rw [cnt_upd_ne st.category_map (row.negative_category.getD ("")) k
              (fun hh => hcat hh.symm)]
            simp [hneg, hcat]
        · simp [ingestRow, hneg]
      rw [hstep]
      simp only [decide_eq_true_eq]
      omega

theorem stage_cntPair (s : List RawComment) : ∀ (st : EngineState) (k : String),
    cntPair (foldFrom st s).stage_map k =
      ((cntPair st.stage_map k).1 + (processed s).countP (fun r => decide (r.video_type = k)),
       (cntPair st.stage_map k).2 +
         (processed s).countP (fun r => decide (r.video_type = k ∧ r.sentiment = "Negative"))) := by
  induction s with
  | nil => intro st k; simp [foldFrom, processed]
  | cons c s ih =>
    intro st k
    rw [foldFrom_cons]
    cases hc : processComment c with
    | none => rw [foldStep_none st c hc, ih, processed_cons_none c s hc]
    | some row =>
      rw [foldStep_some st c row hc, ih, processed_cons_some c s row hc, List.countP_cons,
        List.countP_cons]
      have hstep : cntPair (ingestRow st row).stage_map k =
          ((cntPair st.stage_map k).1 + (if row.video_type = k then 1 else 0),
           (cntPair st.stage_map k).2 +
             (if row.video_type = k ∧ row.sentiment = "Negative" then 1 else 0)) := by
        by_cases ht : row.video_type = k
        · by_cases hneg : row.sentiment = "Negative"
          · simp only [ingestRow, hneg, if_true]
            rw [show row.video_type = k from ht] at *
            rw [cntPair_upd_self, cntPair_upd_self]
            simp [ht, hneg]
          · simp only [ingestRow, hneg, if_false]
            rw [show row.video_type = k from ht] at *
            rw [cntPair_upd_self]
            simp [ht, hneg]
        · by_cases hneg : row.sentiment = "Negative"
          · simp only [ingestRow, hneg, if_true]
            rw [cntPair_upd_ne _ row.video_type k _ (fun hh => ht hh.symm),
              cntPair_upd_ne _ row.video_type k _ (fun hh => ht hh.symm)]
            simp [ht]
          · simp only [ingestRow, hneg, if_false]
            rw [cntPair_upd_ne _ row.video_type k _ (fun hh => ht hh.symm)]
            simp [ht]
      rw [hstep]
      simp only [decide_eq_true_eq, Prod.mk.injEq]
      constructor <;> omega

theorem language_cntPair (s : List RawComment) : ∀ (st : EngineState) (k : String),
    cntPair (foldFrom st s).language_map k =
      ((cntPair st.language_map k).1 +
         (processed s).countP (fun r => decide (r.language = k ∧ ¬r.sentiment = "Negative")),
       (cntPair st.language_map k).2 +
         (processed s).countP (fun r => decide (r.language = k ∧ r.sentiment = "Negative"))) := by
  induction s with
  | nil => intro st k; simp [foldFrom, processed]
  | cons c s ih =>
    intro st k
    rw [foldFrom_cons]
    cases hc : processComment c with
    | none => rw [foldStep_none st c hc, ih, processed_cons_none c s hc]
    | some row =>
      rw [foldStep_some st c row hc, ih, processed_cons_some c s row hc, List.countP_cons,
        List.countP_cons]
      have hstep : cntPair (ingestRow st row).language_map k =
          ((cntPair st.language_map k).1 +
             (if row.language = k ∧ ¬row.sentiment = "Negative" then 1 else 0),
           (cntPair st.language_map k).2 +
             (if row.language = k ∧ row.sentiment = "Negative" then 1 else 0)) := by
        by_cases hl : row.language = k
        · by_cases hneg : row.sentiment = "Negative"
          · simp only [ingestRow]
            rw [show row.language = k from hl] at *
            rw [cntPair_upd_self]
            simp [hl, hneg]
          · simp only [ingestRow]
            rw [show row.language = k from hl] at *
            rw [cntPair_upd_self]
            simp [hl, hneg]
        · simp only [ingestRow]
          rw [cntPair_upd_ne _ row.language k _ (fun hh => hl hh.symm)]
          simp [hl]
      rw [hstep]
      simp only [decide_eq_true_eq, Prod.mk.injEq]
      constructor <;> omega

theorem appendRows_snoc (o : Option (List Row)) (row : Row) (l : List Row) :
    appendRows (some ((o.getD []) ++ [row])) l = appendRows o (row :: l) := by
  cases o <;> simp [appendRows]

theorem video_look (s : List RawComment) : ∀ (st : EngineState) (t : String),
    look (foldFrom st s).video_map t =
      appendRows (look st.video_map t)
        ((processed s).filter (fun r => decide (r.video_title = t))) := by
  induction s with
  | nil => intro st t; simp [foldFrom, processed, appendRows]; cases look st.video_map t <;> simp [appendRows]
  | cons c s ih =>
    intro st t
    rw [foldFrom_cons]
    cases hc : processComment c with
    | none => rw [foldStep_none st c hc, ih, processed_cons_none c s hc]
    | some row =>
      rw [foldStep_some st c row hc, ih, processed_cons_some c s row hc, List.filter_cons]
      by_cases ht : row.video_title = t
      · simp only [ht, decide_True, if_true]
        have : look (ingestRow st row).video_map t =
            some ((look st.video_map t).getD [] ++ [row]) := by
          simp only [ingestRow]
          rw [show row.video_title = t from ht] at *
          exact look_upd_self st.video_map t [] (fun v => v ++ [row])
        rw [this, appendRows_snoc]
      · simp only [ht, decide_False, Bool.false_eq_true, if_false]
        have : look (ingestRow st row).video_map t = look st.video_map t := by
          simp only [ingestRow]
          exact look_upd_ne st.video_map row.video_title t _ _ (fun hh => ht hh.symm)
        rw [this]

theorem user_look (s : List RawComment) : ∀ (st : EngineState) (a : String),
    look (foldFrom st s).user_map a =
      appendRows (look st.user_map a)
        ((processed s).filter (fun r => decide (r.author = a))) := by
  induction s with
  | nil => intro st a; simp [foldFrom, processed]; cases look st.user_map a <;> simp [appendRows]
  | cons c s ih =>
    intro st a
    rw [foldFrom_cons]
    cases hc : processComment c with
    | none => rw [foldStep_none st c hc, ih, processed_cons_none c s hc]
    | some row =>
      rw [foldStep_some st c row hc, ih, processed_cons_some c s row hc, List.filter_cons]
      by_cases ha : row.author = a
      · simp only [ha, decide_True, if_true]
        have : look (ingestRow st row).user_map a =
            some ((look st.user_map a).getD [] ++ [row]) := by
          simp only [ingestRow]
          rw [show row.author = a from ha] at *
          exact look_upd_self st.user_map a [] (fun v => v ++ [row])
        rw [this, appendRows_snoc]
      · simp only [ha, decide_False, Bool.false_eq_true, if_false]
        have : look (ingestRow st row).user_map a = look st.user_map a := by
          simp only [ingestRow]
          exact look_upd_ne st.user_map row.author a _ _ (fun hh => ha hh.symm)
        rw [this]

theorem video_keys_nodup (s : List RawComment) : ∀ st : EngineState,
    (keys st.video_map).Nodup → (keys (foldFrom st s).video_map).Nodup := by
  induction s with
  | nil => intro st h; simpa [foldFrom] using h
  | cons c s ih =>
    intro st h
    rw [foldFrom_cons]
    cases hc : processComment c with
    | none => rw [foldStep_none st c hc]; exact ih st h
    | some row =>
      rw [foldStep_some st c row hc]
      apply ih
      simp only [ingestRow]
      exact keysNodup_upd st.video_map row.video_title _ _ h

theorem user_keys_nodup (s : List RawComment) : ∀ st : EngineState,
    (keys st.user_map).Nodup → (keys (foldFrom st s).user_map).Nodup := by
  induction s with
  | nil => intro st h; simpa [foldFrom] using h
  | cons c s ih =>
    intro st h
    rw [foldFrom_cons]
    cases hc : processComment c with
    | none => rw [foldStep_none st c hc]; exact ih st h
    | some row =>
      rw [foldStep_some st c row hc]
      apply ih
      simp only [ingestRow]
      exact keysNodup_upd st.user_map row.author _ _ h

theorem appendRows_none (l : List Row) :
    appendRows none l = if l = [] then none else some l := by
  cases l <;> simp [appendRows]

theorem video_look_stream (s : List RawComment) (t : String) :
    look (foldStream s).video_map t =
      if videoRows s t = [] then none else some (videoRows s t) := by
  rw [foldStream, video_look s emptyState t]
  rw [show look emptyState.video_map t = none from rfl]
  exact appendRows_none _

theorem user_look_stream (s : List RawComment) (a : String) :
    look (foldStream s).user_map a =
      if (processed s).filter (fun r => decide (r.author = a)) = [] then none
      else some ((processed s).filter (fun r => decide (r.author = a))) := by
  rw [foldStream, user_look s emptyState a]
  rw [show look emptyState.user_map a = none from rfl]
  exact appendRows_none _

theorem videoRows_negCount (s : List RawComment) (t : String) :
    negCountRows (videoRows s t) =
      (processed s).countP (fun r => decide (r.video_title = t ∧ r.sentiment = "Negative")) := by
  rw [negCountRows, videoRows, List.countP_filter]
  apply List.countP_congr
  intro r _
  simp [Bool.decide_and, Bool.and_comm]

theorem userRows_negCount (s : List RawComment) (a : String) :
    negCountRows ((processed s).filter (fun r => decide (r.author = a))) =
      (userNegRows s a).length := by
  rw [negCountRows, List.countP_filter, userNegRows, ← List.countP_eq_length_filter]
  apply List.countP_congr
  intro r _
  simp [Bool.decide_and, Bool.and_comm]

theorem userNeg_filter_eq (s : List RawComment) (a : String) :
    ((processed s).filter (fun r => decide (r.author = a))).filter
        (fun r => decide (r.sentiment = "Negative")) = userNegRows s a := by
  rw [List.filter_filter, userNegRows]
  apply List.filter_congr
  intro r _
  simp [Bool.decide_and, Bool.and_comm]

theorem flagged_mem_char (s : List RawComment) (t : String) :
    t ∈ flaggedTitles (foldStream s) ↔
      NEGATIVE_VIDEO_THRESHOLD ≤ pctRows (videoRows s t) := by
  constructor
  · intro h
    obtain ⟨v, hv, hvt⟩ := List.mem_map.mp h
    obtain ⟨p, hp, hf⟩ := List.mem_filterMap.mp hv
    simp only [flagEntry] at hf
    by_cases hcond : NEGATIVE_VIDEO_THRESHOLD ≤ pctRows p.2
    · rw [if_pos hcond] at hf
      have hveq := Option.some.inj hf
      have hpt : p.1 = t := by
        rw [← hvt, ← hveq]
      have hnd : (keys (foldStream s).video_map).Nodup :=
        video_keys_nodup s emptyState (by simp [emptyState, keys])
      have hlook := look_eq_of_mem _ p.1 p.2 hnd hp
      rw [video_look_stream] at hlook
      by_cases hne : videoRows s p.1 = []
      · rw [if_pos hne] at hlook
        exact absurd hlook (by simp)
      · rw [if_neg hne] at hlook
        have h2 := Option.some.inj hlook
        rw [← hpt, h2]
        exact hcond
    · rw [if_neg hcond] at hf
      exact absurd hf (by simp)
  · intro h
    have hne : videoRows s t ≠ [] := by
      intro he
      rw [he] at h
      exact absurd h (by decide)
    have hlook : look (foldStream s).video_map t = some (videoRows s t) := by
      rw [video_look_stream, if_neg hne]
    have hmem := mem_of_look_eq _ t _ hlook
    cases hfe : flagEntry (t, videoRows s t) with
    | none =>
      exfalso
      simp only [flagEntry] at hfe
      rw [if_pos h] at hfe
      exact absurd hfe (by simp)
    | some v =>
      apply List.mem_map.mpr
      refine ⟨v, List.mem_filterMap.mpr ⟨(t, videoRows s t), hmem, hfe⟩, ?_⟩
      simp only [flagEntry] at hfe
      rw [if_pos h] at hfe
      have hveq := Option.some.inj hfe
      rw [← hveq]

theorem repeat_mem_char (s : List RawComment) (a : String) :
    a ∈ repeatAuthors (foldStream s) ↔ REPEAT_USER_THRESHOLD ≤ (userNegRows s a).length := by
  constructor
  · intro h
    obtain ⟨p, hp, hpa⟩ := List.mem_map.mp h
    obtain ⟨hpm, hcond⟩ := List.mem_filter.mp hp
    have hnd : (keys (foldStream s).user_map).Nodup :=
      user_keys_nodup s emptyState (by simp [emptyState, keys])
    have hlook := look_eq_of_mem _ p.1 p.2 hnd hpm
    rw [user_look_stream] at hlook
    subst hpa
    by_cases hne : (processed s).filter (fun r => decide (r.author = p.1)) = []
    · rw [if_pos hne] at hlook
      exact absurd hlook (by simp)
    · rw [if_neg hne] at hlook
      have h2 := Option.some.inj hlook
      rw [← userRows_negCount s p.1, h2]
      exact of_decide_eq_true hcond
  · intro h
    have hlen : (userNegRows s a).length ≤
        ((processed s).filter (fun r => decide (r.author = a))).length := by
      rw [userNegRows, ← List.countP_eq_length_filter, ← List.countP_eq_length_filter]
      apply List.countP_mono_left
      intro r _ hr
      exact decide_eq_true (of_decide_eq_true hr).1
    have hne : (processed s).filter (fun r => decide (r.author = a)) ≠ [] := by
      intro he
      have h0 : ((processed s).filter (fun r => decide (r.author = a))).length = 0 := by
        rw [he]
        rfl
      unfold REPEAT_USER_THRESHOLD at h
      omega
    have hlook : look (foldStream s).user_map a =
        some ((processed s).filter (fun r => decide (r.author = a))) := by
      rw [user_look_stream, if_neg hne]
    have hmem := mem_of_look_eq _ a _ hlook
    apply List.mem_map.mpr
    refine ⟨(a, (processed s).filter (fun r => decide (r.author = a))), ?_, rfl⟩
    apply List.mem_filter.mpr
    refine ⟨hmem, decide_eq_true ?_⟩
    rw [userRows_negCount s a]
    exact h

theorem attacker_mem_char (s : List RawComment) (a : String) :
    a ∈ attackerAuthors (foldStream s) ↔
      (REPEAT_USER_THRESHOLD ≤ (userNegRows s a).length ∧ 2 ≤ userNegStageCount s a) := by
  constructor
  · intro h
    obtain ⟨x, hx, hxa⟩ := List.mem_map.mp h
    obtain ⟨p, hp, hf⟩ := List.mem_filterMap.mp hx
    simp only [attackEntry] at hf
    have hnd : (keys (foldStream s).user_map).Nodup :=
      user_keys_nodup s emptyState (by simp [emptyState, keys])
    have hlook := look_eq_of_mem _ p.1 p.2 hnd hp
    rw [user_look_stream] at hlook
    by_cases hcond : REPEAT_USER_THRESHOLD ≤
        (p.2.filter (fun r => decide (r.sentiment = "Negative"))).length ∧
        2 ≤ (((p.2.filter (fun r => decide (r.sentiment = "Negative"))).map
          (fun r => r.video_type)).dedup).length
    · rw [if_pos hcond] at hf
      have hxeq := Option.some.inj hf
      have hpa : p.1 = a := by
        rw [← hxa, ← hxeq]
      by_cases hne : (processed s).filter (fun r => decide (r.author = p.1)) = []
      · rw [if_pos hne] at hlook
        exact absurd hlook (by simp)
      · rw [if_neg hne] at hlook
        have h2 := Option.some.inj hlook
        rw [← hpa]
        have hu : userNegRows s p.1 =
            p.2.filter (fun r => decide (r.sentiment = "Negative")) := by
          rw [← userNeg_filter_eq s p.1, h2]
        rw [userNegStageCount, hu]
        exact hcond
    · rw [if_neg hcond] at hf
      exact absurd hf (by simp)
  · intro h
    have hlen : (userNegRows s a).length ≤
        ((processed s).filter (fun r => decide (r.author = a))).length := by
      rw [userNegRows, ← List.countP_eq_length_filter, ← List.countP_eq_length_filter]
      apply List.countP_mono_left
      intro r _ hr
      exact decide_eq_true (of_decide_eq_true hr).1
    have hne : (processed s).filter (fun r => decide (r.author = a)) ≠ [] := by
      intro he
      have h0 : ((processed s).filter (fun r => decide (r.author = a))).length = 0 := by
        rw [he]
        rfl
      have h1 := h.1
      unfold REPEAT_USER_THRESHOLD at h1
      omega
    have hlook : look (foldStream s).user_map a =
        some ((processed s).filter (fun r => decide (r.author = a))) := by
      rw [user_look_stream, if_neg hne]
    have hmem := mem_of_look_eq _ a _ hlook
    have hcond : REPEAT_USER_THRESHOLD ≤
        (((processed s).filter (fun r => decide (r.author = a))).filter
          (fun r => decide (r.sentiment = "Negative"))).length ∧
        2 ≤ ((((processed s).filter (fun r => decide (r.author = a))).filter
          (fun r => decide (r.sentiment = "Negative"))).map
            (fun r => r.video_type)).dedup.length := by
      rw [userNeg_filter_eq s a]
      exact ⟨h.1, h.2⟩
    cases hfe : attackEntry (a, (processed s).filter (fun r => decide (r.author = a))) with
    | none =>
      exfalso
      simp only [attackEntry] at hfe
      rw [if_pos hcond] at hfe
      exact absurd hfe (by simp)
    | some x =>
      apply List.mem_map.mpr
      refine ⟨x, List.mem_filterMap.mpr
        ⟨(a, (processed s).filter (fun r => decide (r.author = a))), hmem, hfe⟩, ?_⟩
      simp only [attackEntry] at hfe
      rw [if_pos hcond] at hfe
      have hxeq := Option.some.inj hfe
      rw [← hxeq]

theorem processed_length (s : List RawComment) :
    (processed s).length = s.countP (fun c => (processComment c).isSome) := by
  induction s with
  | nil => simp [processed]
  | cons c s ih =>
    rw [List.countP_cons]
    cases hc : processComment c with
    | none => rw [processed_cons_none c s hc, ih]; simp [hc]
    | some row => rw [processed_cons_some c s row hc]; simp [List.length_cons, ih, hc]

theorem results_stream (s : List RawComment) : (foldStream s).results = processed s := by
  rw [foldStream, results_foldFrom]
  rfl

theorem firstLabel_eq_find (rules : List (String × List String)) (t : String) :
    firstLabel rules t =
      (rules.find? (fun rule => rule.2.any (fun k => strContains t k))).map
        (fun rule => rule.1) := by
  induction rules with
  | nil => simp [firstLabel]
  | cons r rest ih =>
    by_cases hc : r.2.any (fun k => strContains t k) = true
    · simp [firstLabel, List.find?_cons, hc]
    · simp only [Bool.not_eq_true] at hc
      simp [firstLabel, List.find?_cons, hc, ih]

theorem firstLabel_mem (rules : List (String × List String)) (t : String) (l : String)
    (h : firstLabel rules t = some l) : l ∈ rules.map (fun rule => rule.1) := by
  induction rules with
  | nil => simp [firstLabel] at h
  | cons r rest ih =>
    simp only [firstLabel] at h
    by_cases hc : r.2.any (fun k => strContains t k) = true
    · rw [if_pos hc] at h
      simp only [Option.some.injEq] at h
      subst h
      simp
    · simp only [Bool.not_eq_true] at hc
      rw [if_neg (by simp [hc])] at h
      simp only [List.map_cons, List.mem_cons]
      exact Or.inr (ih h)

theorem run_fields (s : List RawComment) (r : Report) (h : run_intelligence s = some r) :
    r.instances.total_mentions = (foldStream s).results.length ∧
    r.instances.negative_mentions = negCountRows (foldStream s).results ∧
    r.negative_spikes = (foldStream s).spikes := by
  simp only [run_intelligence] at h
  cases htk : takeawaysOf (foldStream s) with
  | none =>
    rw [htk] at h
    simp at h
  | some kt =>
    rw [htk] at h
    simp only [Option.some.injEq] at h
    rw [← h]
    exact ⟨rfl, rfl, rfl⟩

/-! ## Claim theorems -/

/-- C1: for every input stream, the total_mentions field of the report
instances block equals the number of records successfully processed (not
skipped), and negative_mentions equals the number of those processed records
whose sentiment is Negative. -/
theorem C1_instances_counts (s : List RawComment) (r : Report)
    (h : run_intelligence s = some r) :
    r.instances.total_mentions = s.countP (fun c => (processComment c).isSome) ∧
    r.instances.negative_mentions =
      (processed s).countP (fun x => decide (x.sentiment = "Negative")) := by
  obtain ⟨h1, h2, _⟩ := run_fields s r h
  constructor
  · rw [h1, results_stream, processed_length]
  · rw [h2, results_stream]
    rfl

/-- Witness for C1 at a concrete stream of one processed and one skipped
record. -/
theorem C1_witness :
    run_intelligence [goodRecord, badRecord] = some (reportOf [goodRecord, badRecord]) ∧
    (reportOf [goodRecord, badRecord]).instances.total_mentions =
      ([goodRecord, badRecord]).countP (fun c => (processComment c).isSome) ∧
    (reportOf [goodRecord, badRecord]).instances.negative_mentions =
      (processed [goodRecord, badRecord]).countP (fun x => decide (x.sentiment = "Negative")) :=
  ⟨by decide, C1_instances_counts [goodRecord, badRecord] (reportOf [goodRecord, badRecord])
    (by decide)⟩

/-- C4: the claim says the empty stream yields a complete all-zero report
and never raises; the code instead raises ValueError while building the
key_takeaways, because Python max is applied to the empty stage_map
(src/intelligence.py line 240).  The engine therefore produces no report on
empty input, modelled as none. -/
theorem C4_empty_input_crash : run_intelligence [] = none := by decide

/-- C6: both classifiers lower-case their input, scan their ordered rule
list in declaration order, return the label of the first rule any of whose
keywords occurs as a substring, and fall back to the fixed defaults Other
and General Negativity, never an empty label. -/
theorem C6_classifier_contract (title text : String) :
    (classify_video title =
      ((VIDEO_CLASSIFIERS.find?
        (fun rule => rule.2.any (fun k => strContains (lowerStr title) k))).map
          (fun rule => rule.1)).getD ("Other")) ∧
    (categorize_negative text =
      ((NEGATIVE_CATEGORIES.find?
        (fun rule => rule.2.any (fun k => strContains (lowerStr text) k))).map
          (fun rule => rule.1)).getD ("General Negativity")) ∧
    classify_video title ≠ "" ∧ categorize_negative text ≠ "" := by
  refine ⟨?_, ?_, ?_, ?_⟩
  · rw [classify_video, firstLabel_eq_find]
  · rw [categorize_negative, firstLabel_eq_find]
  · rw [classify_video]
    cases hf : firstLabel VIDEO_CLASSIFIERS (lowerStr title) with
    | none => simp
    | some l =>
      have hm := firstLabel_mem _ _ _ hf
      simp only [VIDEO_CLASSIFIERS, List.map_cons, List.map_nil, List.mem_cons,
        List.not_mem_nil, or_false] at hm
      simp only [Option.getD_some]
      rcases hm with rfl | rfl | rfl | rfl | rfl | rfl <;> decide
  · rw [categorize_negative]
    cases hf : firstLabel NEGATIVE_CATEGORIES (lowerStr text) with
    | none => simp
    | some l =>
      have hm := firstLabel_mem _ _ _ hf
      simp only [NEGATIVE_CATEGORIES, List.map_cons, List.map_nil, List.mem_cons,
        List.not_mem_nil, or_false] at hm
      simp only [Option.getD_some]
      rcases hm with rfl | rfl | rfl | rfl | rfl | rfl <;> decide

/-- C10: the normalized sentiment is always exactly Positive or Negative,
it is Positive exactly when the lower-cased classifier label contains the
substring pos, and any other label, Neutral included, maps to Negative. -/
theorem C10_sentiment_binary (label : String) :
    (normalize_sentiment label = "Positive" ∨ normalize_sentiment label = "Negative") ∧
    (normalize_sentiment label = "Positive" ↔ strContains (lowerStr label) ("pos") = true) ∧
    normalize_sentiment ("Neutral") = "Negative" := by
  refine ⟨?_, ?_, by decide⟩
  · by_cases h : strContains (lowerStr label) ("pos") = true
    · left
      rw [normalize_sentiment, if_pos h]
    · right
      rw [normalize_sentiment, if_neg h]
  · by_cases h : strContains (lowerStr label) ("pos") = true
    · rw [normalize_sentiment, if_pos h]
      simp [h]
    · rw [normalize_sentiment, if_neg h]
      constructor
      · intro he
        exact absurd he (by decide)
      · intro hb
        exact absurd hb h

/-- C7 (amended): a record whose processing raises, for example on an
unparseable publishedAt, is skipped silently — the bare except of the source
keeps no diagnostic counter — and processing of all remaining records
continues; no per-record error aborts the run. -/
theorem C7_skip_and_continue (xs ys : List RawComment) (c : RawComment)
    (h : processComment c = none) :
    run_intelligence (xs ++ c :: ys) = run_intelligence (xs ++ ys) := by
  have hfold : foldStream (xs ++ c :: ys) = foldStream (xs ++ ys) := by
    rw [foldStream, foldStream, foldFrom, foldFrom, List.foldl_append, List.foldl_append,
      List.foldl_cons, foldStep_none _ c h]
  simp only [run_intelligence, hfold]

/-- C7 counterexample: the claim as stated requires a parseFailure
diagnostic counter to be incremented so the failure is observable; the code
has none — the engine output on a stream containing a failing record is
identical to the output with that record absent, so nothing observable
records the failure. -/
theorem C7_counterexample :
    processComment badRecord = none ∧
    run_intelligence [goodRecord, badRecord] = run_intelligence [goodRecord] :=
  ⟨by decide, by decide⟩

/-- Witness for the amended C7 at a concrete failing record. -/
theorem C7_witness :
    processComment badRecord = none ∧
    run_intelligence ([goodRecord] ++ badRecord :: []) = run_intelligence ([goodRecord] ++ []) :=
  ⟨by decide, C7_skip_and_continue [goodRecord] [] badRecord (by decide)⟩

/-- C9: in every state the engine reaches, each stage present in the
per-stage counters has its negative count bounded by its total count. -/
theorem C9_stage_negative_le_total (s : List RawComment) (k : String) (v : Nat × Nat)
    (h : look (foldStream s).stage_map k = some v) : v.2 ≤ v.1 := by
  have hv : v = cntPair (foldStream s).stage_map k := by
    rw [cntPair, h]
    rfl
  rw [hv, foldStream, stage_cntPair s emptyState k]
  simp only [cntPair, emptyState, look, Option.getD_none]
  apply Nat.add_le_add
  · exact Nat.le_refl 0
  · apply List.countP_mono_left
    intro r _ hr
    exact decide_eq_true (of_decide_eq_true hr).1

/-- Witness for C9: the Song stage of the flagged-video demo stream holds
7 total and 5 negative comments. -/
theorem C9_witness :
    look (foldStream demoFlag).stage_map ("Song") = some (7, 5) ∧ (7, 5).2 ≤ (7, 5).1 :=
  ⟨by decide, C9_stage_negative_le_total demoFlag ("Song") (7, 5) (by decide)⟩

/-- C2: against the spec-modelled Coordination Detector (its code is not in
src/, only its dashboard consumer), a user appears in the
attack_coordination output exactly when the user has at least
REPEAT_USER_THRESHOLD (3) Negative comments and the distinct videoType
values among those Negative comments number at least 2; in particular the
demo user with 5 Negative comments all under the single Song stage is not
flagged, while the user with 4 Negative comments across Song and Trailer
is. -/
theorem C2_coordinated_attackers (s : List RawComment) (a : String) :
    (a ∈ attackerAuthors (foldStream s) ↔
      (REPEAT_USER_THRESHOLD ≤ (userNegRows s a).length ∧ 2 ≤ userNegStageCount s a)) ∧
    (userNegRows demoUsers ("troll")).length = 5 ∧
    userNegStageCount demoUsers ("troll") = 1 ∧
    ¬ (("troll") ∈ attackerAuthors (foldStream demoUsers)) ∧
    (("fan") ∈ attackerAuthors (foldStream demoUsers)) :=
  ⟨attacker_mem_char s a, by decide, by decide, by decide, by decide⟩

/-- C3 (amended): the engine emits the raw per-hour negative-count series
negative_spikes, mapping each hour bucket to the number of processed
Negative records in that bucket; no spike alert is computed. -/
theorem C3_negative_spikes_series (s : List RawComment) (r : Report) (k : String)
    (h : run_intelligence s = some r) :
    cnt r.negative_spikes k =
      (processed s).countP (fun x => decide (x.sentiment = "Negative" ∧ x.hour_bucket = k)) := by
  obtain ⟨_, _, h3⟩ := run_fields s r h
  rw [h3, foldStream, spikes_cnt s emptyState k]
  simp [cnt, look, emptyState]

/-- Witness for the amended C3 at the three-bucket demo stream. -/
theorem C3_witness :
    run_intelligence demoSpike = some (reportOf demoSpike) ∧
    cnt (reportOf demoSpike).negative_spikes ("2026-01-01 03:00") =
      (processed demoSpike).countP
        (fun x => decide (x.sentiment = "Negative" ∧ x.hour_bucket = "2026-01-01 03:00")) :=
  ⟨by decide, C3_negative_spikes_series demoSpike (reportOf demoSpike) ("2026-01-01 03:00")
    (by decide)⟩

/-- C3 counterexample: for the stream whose chronologically ordered bucket
series is 1, 1, 4, the spike rule of the claim mandates an emitted alert
with count 4, baseline 1.0 and severity HIGH, but the report the engine
actually emits carries no alert at all: the string HIGH occurs nowhere in
it (and the report has no field of alert shape). -/
theorem C3_counterexample :
    detectSpike_claim (foldStream demoSpike).spikes =
      some { bucket := "2026-01-01 03:00", count := 4, average := 1, severity := "HIGH" } ∧
    run_intelligence demoSpike = some (reportOf demoSpike) ∧
    ¬ (("HIGH") ∈ reportStrings (reportOf demoSpike)) :=
  ⟨by decide, by decide, by decide⟩

/-- C5: a video title appears in the flagged-video list exactly when its
rounded negative percentage, computed as round of negatives over
max(1, total) times 100 to two decimals, meets the 60 threshold; the demo
video with 7 comments and 5 negative is flagged, the one with 3 comments
and 1 negative is not. -/
theorem C5_flagged_videos (s : List RawComment) (t : String) :
    (t ∈ flaggedTitles (foldStream s) ↔
      NEGATIVE_VIDEO_THRESHOLD ≤ pctRows (videoRows s t)) ∧
    (("AAA") ∈ flaggedTitles (foldStream demoFlag)) ∧
    ¬ (("BBB") ∈ flaggedTitles (foldStream demoFlag)) :=
  ⟨flagged_mem_char s t, by decide, by decide⟩

/-- C8: for two input streams that are permutations of each other, every
aggregate count (per stage, language, video, category, time bucket), the
set of flagged video titles, the set of repeat users and the set of
coordinated attackers coincide; only ordering inside the lists may differ,
never membership. -/
theorem C8_order_independence (s1 s2 : List RawComment) (h : s1.Perm s2) (k t a : String) :
    cntPair (foldStream s1).stage_map k = cntPair (foldStream s2).stage_map k ∧
    cntPair (foldStream s1).language_map k = cntPair (foldStream s2).language_map k ∧
    cnt (foldStream s1).category_map k = cnt (foldStream s2).category_map k ∧
    cnt (foldStream s1).spikes k = cnt (foldStream s2).spikes k ∧
    cnt (foldStream s1).engagement t = cnt (foldStream s2).engagement t ∧
    (videoRows s1 t).length = (videoRows s2 t).length ∧
    negCountRows (videoRows s1 t) = negCountRows (videoRows s2 t) ∧
    (t ∈ flaggedTitles (foldStream s1) ↔ t ∈ flaggedTitles (foldStream s2)) ∧
    (a ∈ repeatAuthors (foldStream s1) ↔ a ∈ repeatAuthors (foldStream s2)) ∧
    (a ∈ attackerAuthors (foldStream s1) ↔ a ∈ attackerAuthors (foldStream s2)) := by
  have hp : (processed s1).Perm (processed s2) := List.Perm.filterMap processComment h
  have hv : (videoRows s1 t).Perm (videoRows s2 t) := hp.filter _
  have hu : (userNegRows s1 a).Perm (userNegRows s2 a) := hp.filter _
  have hvl : (videoRows s1 t).length = (videoRows s2 t).length := hv.length_eq
  have hvn : negCountRows (videoRows s1 t) = negCountRows (videoRows s2 t) := hv.countP_eq _
  have hul : (userNegRows s1 a).length = (userNegRows s2 a).length := hu.length_eq
  have hus : userNegStageCount s1 a = userNegStageCount s2 a := by
    rw [userNegStageCount, userNegStageCount]
    exact ((hu.map (fun r => r.video_type)).dedup).length_eq
  refine ⟨?_, ?_, ?_, ?_, ?_, hvl, hvn, ?_, ?_, ?_⟩
  · rw [foldStream, foldStream, stage_cntPair s1 emptyState k, stage_cntPair s2 emptyState k,
      hp.countP_eq, hp.countP_eq]
  · rw [foldStream, foldStream, language_cntPair s1 emptyState k,
      language_cntPair s2 emptyState k, hp.countP_eq, hp.countP_eq]
  · rw [foldStream, foldStream, category_cnt s1 emptyState k, category_cnt s2 emptyState k,
      hp.countP_eq]
  · rw [foldStream, foldStream, spikes_cnt s1 emptyState k, spikes_cnt s2 emptyState k,
      hp.countP_eq]
  · rw [foldStream, foldStream, engagement_cnt s1 emptyState t, engagement_cnt s2 emptyState t,
      hp.countP_eq]
  · rw [flagged_mem_char s1 t, flagged_mem_char s2 t]
    simp only [pctRows]
    rw [hvn, hvl]
  · rw [repeat_mem_char s1 a, repeat_mem_char s2 a, hul]
  · rw [attacker_mem_char s1 a, attacker_mem_char s2 a, hul, hus]

/-- Witness for C8 at a concrete two-record stream and its swap. -/
theorem C8_witness :
    demoPermA.Perm demoPermB ∧
    (("AAA") ∈ flaggedTitles (foldStream demoPermA) ↔
      ("AAA") ∈ flaggedTitles (foldStream demoPermB)) ∧
    cntPair (foldStream demoPermA).stage_map ("Song") =
      cntPair (foldStream demoPermB).stage_map ("Song") :=
  ⟨by decide,
   (C8_order_independence demoPermA demoPermB (by decide) ("Song") ("AAA")
     ("alice")).2.2.2.2.2.2.2.1,
   (C8_order_independence demoPermA demoPermB (by decide) ("Song") ("AAA") ("alice")).1⟩
